import Mathlib

/-!
# Verification of the speed-test measurement-to-metrics pipeline

Shallow embedding of the statistical core of `src/app/page.tsx`:
descriptive statistics, quality metrics (jitter, stability, trend),
grading, result assembly, history recording, peak analysis and anomaly
detection.  JavaScript numbers are modelled as exact rationals (`ℚ`);
`Math.sqrt` is modelled by `Real.sqrt`, so the two functions that take a
square root (`calculateDetailedStats`' `stdDev` and the anomaly
thresholds) live in `ℝ`.  `Math.round` (round half towards `+∞`) is
modelled by `⌊x + 1/2⌋`.
-/

namespace SpeedLab

/-- JavaScript `Math.round` on an exact rational: round half up. -/
def jsRound (q : ℚ) : ℤ := ⌊q + 1/2⌋

/-- JavaScript `Math.round` on a real argument (used after real-valued
division by a standard deviation). -/
noncomputable def jsRoundR (x : ℝ) : ℤ := ⌊x + 1/2⌋

/-- The seven-number statistical summary (`DetailedStats` in `page.tsx`).
All fields are exact rationals except `stdDev`, which is a square root. -/
structure DetailedStats where
  mean : ℚ
  median : ℚ
  min : ℚ
  max : ℚ
  stdDev : ℝ
  p95 : ℚ
  p99 : ℚ

/-- The population variance `values.reduce((sum, val) => sum + (val - mean)^2, 0) / n`
appearing inside `calculateDetailedStats`. -/
def popVariance (values : List ℚ) : ℚ :=
  (values.map (fun v => (v - values.sum / (values.length : ℚ)) ^ 2)).sum / (values.length : ℚ)

/-- `calculateDetailedStats` (page.tsx:131-159).  The sorted copy
`[...values].sort((a, b) => a - b)` is modelled by an insertion sort with
`≤` (any comparison sort of rationals produces the same list). -/
noncomputable def calculateDetailedStats (values : List ℚ) : DetailedStats :=
  if values = [] then { mean := 0, median := 0, min := 0, max := 0, stdDev := 0, p95 := 0, p99 := 0 }
  else
    let sorted := values.insertionSort (· ≤ ·)
    let n := sorted.length
    let mean := values.sum / (n : ℚ)
    let mid := n / 2
    let median := if n % 2 = 1 then sorted.getD mid 0
                  else (sorted.getD (mid - 1) 0 + sorted.getD mid 0) / 2
    let variance := (values.map (fun v => (v - mean) ^ 2)).sum / (n : ℚ)
    let p95Index := (⌈(n : ℚ) * 0.95⌉ - 1).toNat
    let p99Index := (⌈(n : ℚ) * 0.99⌉ - 1).toNat
    { mean := mean
      median := median
      min := sorted.getD 0 0
      max := sorted.getD (n - 1) 0
      stdDev := Real.sqrt variance
      p95 := sorted.getD p95Index 0
      p99 := sorted.getD p99Index 0 }

/-- The running sum of `|pingValues[i] - pingValues[i-1]|` built by the
`for` loop in `calculateJitter` (page.tsx:164-167). -/
def sumAbsDiff : List ℚ → ℚ
  | a :: b :: rest => |b - a| + sumAbsDiff (b :: rest)
  | _ => 0

/-- `calculateJitter` (page.tsx:162-169). -/
def calculateJitter (pingValues : List ℚ) : ℚ :=
  if pingValues.length < 2 then 0
  else sumAbsDiff pingValues / ((pingValues.length - 1 : ℕ) : ℚ)

/-- `calculateStabilityScore` (page.tsx:172-179): clamp
`100 - (stdDev/mean)*200` to `[0, 100]` and round; `0` for zero mean. -/
noncomputable def calculateStabilityScore (stats : DetailedStats) : ℤ :=
  if stats.mean = 0 then 0
  else
    let coefficientOfVariation : ℝ := stats.stdDev / (stats.mean : ℝ)
    let score := max 0 (min 100 (100 - coefficientOfVariation * 200))
    jsRoundR score

/-- `calculateTrendSlope` (page.tsx:182-198).  `xValues` is the index
list, `xMean` is hard-coded to `(n - 1) / 2` in the source. -/
def calculateTrendSlope (values : List ℚ) : ℚ :=
  if values.length < 2 then 0
  else
    let n := values.length
    let xMean : ℚ := ((n : ℚ) - 1) / 2
    let yMean := values.sum / (n : ℚ)
    let numerator := (values.enum.map (fun p => ((p.1 : ℚ) - xMean) * (p.2 - yMean))).sum
    let denominator := (values.enum.map (fun p => ((p.1 : ℚ) - xMean) ^ 2)).sum
    if denominator = 0 then 0 else numerator / denominator

/-- The ordinary least-squares slope as the specification states it
(§4.2): `x̄` is the true mean of the indices, and the result is `0` when
the denominator `Σ(x-x̄)²` vanishes (which subsumes lists shorter
than 2). -/
def olsSlope (xs : List ℚ) : ℚ :=
  let n := xs.length
  let xbar := ((List.range n).map (fun i : ℕ => (i : ℚ))).sum / (n : ℚ)
  let ybar := xs.sum / (n : ℚ)
  let num := (xs.enum.map (fun p => ((p.1 : ℚ) - xbar) * (p.2 - ybar))).sum
  let den := (xs.enum.map (fun p => ((p.1 : ℚ) - xbar) ^ 2)).sum
  if den = 0 then 0 else num / den

/-- The metric discriminator `'download' | 'upload' | 'ping'` of
`calculateGrade`. -/
inductive MetricType where
  | download
  | upload
  | ping
deriving DecidableEq

/-- `calculateGrade` (page.tsx:201-219). -/
def calculateGrade (actual expected : ℚ) (type : MetricType) : String :=
  match type with
  | .ping =>
    if actual ≤ expected * 0.5 then "A+"
    else if actual ≤ expected * 0.75 then "A"
    else if actual ≤ expected then "B"
    else if actual ≤ expected * 1.5 then "C"
    else if actual ≤ expected * 2 then "D"
    else "F"
  | _ =>
    if actual ≥ expected * 1.2 then "A+"
    else if actual ≥ expected then "A"
    else if actual ≥ expected * 0.8 then "B"
    else if actual ≥ expected * 0.6 then "C"
    else if actual ≥ expected * 0.4 then "D"
    else "F"

/-- The `gradeValues` lookup object of page.tsx:1049 (keys absent from
the object are unreachable in the program; they are mapped to `0`). -/
def gradeValues (g : String) : ℚ :=
  if g = "A+" then 4.3
  else if g = "A" then 4.0
  else if g = "B" then 3.0
  else if g = "C" then 2.0
  else if g = "D" then 1.0
  else 0

/-- The overall-grade computation of page.tsx:1049-1058: average the
three grade points and remap through the fixed thresholds. -/
def combineGrades (downGrade upGrade pingGrade : String) : String :=
  let avgGradeValue := (gradeValues downGrade + gradeValues upGrade + gradeValues pingGrade) / 3
  if avgGradeValue ≥ 4.2 then "A+"
  else if avgGradeValue ≥ 3.5 then "A"
  else if avgGradeValue ≥ 2.5 then "B"
  else if avgGradeValue ≥ 1.5 then "C"
  else if avgGradeValue ≥ 0.5 then "D"
  else "F"

/-- The optional nested `stats` block of a finished `SpeedResult`. -/
structure ResultStats where
  downloadStats : DetailedStats
  uploadStats : DetailedStats
  pingStats : DetailedStats
  jitter : ℚ
  stabilityScore : ℤ
  grade : String
  trendSlope : ℚ

/-- `SpeedResult` (page.tsx:7-27), the unit of history. -/
structure SpeedResult where
  id : String
  timestamp : ℤ
  download : ℚ
  upload : ℚ
  ping : ℚ
  networkType : Option String := none
  location : Option String := none
  serverId : Option String := none
  serverName : Option String := none
  dnsLookupTime : Option ℚ := none
  stats : Option ResultStats := none

/-- `TestServer` (page.tsx:33-39). -/
structure TestServer where
  id : String
  name : String
  location : String
  region : String
  latency : Option ℚ := none

/-- `TEST_SERVERS` (page.tsx:41-49). -/
def TEST_SERVERS : List TestServer :=
  [ { id := "auto", name := "Auto Select", location := "Nearest", region := "auto" },
    { id := "us-east", name := "US East", location := "New York", region := "NA" },
    { id := "us-west", name := "US West", location := "Los Angeles", region := "NA" },
    { id := "eu-west", name := "EU West", location := "London", region := "EU" },
    { id := "eu-central", name := "EU Central", location := "Frankfurt", region := "EU" },
    { id := "asia-east", name := "Asia East", location := "Tokyo", region := "APAC" },
    { id := "asia-south", name := "Asia South", location := "Singapore", region := "APAC" } ]

/-- The completion step of the upload phase (page.tsx:1023-1080): compute
the three `DetailedStats`, jitter, stability, trend slopes, grades, and
assemble the finished `SpeedResult`.  The sample buffers and the run
context (id, timestamp, tags) are parameters; in the source they are
closure state. -/
noncomputable def finishRun (down up ping : List ℚ) (ispDown ispUp ispPing : ℚ)
    (id : String) (timestamp : ℤ) (networkType location selectedServer : String)
    (dnsLookupTime : Option ℚ) : SpeedResult :=
  let downloadStats := calculateDetailedStats down
  let uploadStats := calculateDetailedStats up
  let pingStats := calculateDetailedStats ping
  let jitter := calculateJitter ping
  let stabilityScore := calculateStabilityScore downloadStats
  let downloadTrend := calculateTrendSlope down
  let uploadTrend := calculateTrendSlope up
  let pingTrend := calculateTrendSlope ping
  let trendSlope := (downloadTrend + uploadTrend - pingTrend) / 3
  let downGrade := calculateGrade downloadStats.median ispDown .download
  let upGrade := calculateGrade uploadStats.median ispUp .upload
  let pingGrade := calculateGrade pingStats.median ispPing .ping
  let overallGrade := combineGrades downGrade upGrade pingGrade
  { id := id
    timestamp := timestamp
    download := (jsRound (downloadStats.median * 10) : ℚ) / 10
    upload := (jsRound (uploadStats.median * 10) : ℚ) / 10
    ping := (jsRound pingStats.median : ℚ)
    networkType := some networkType
    location := if location = "" then none else some location
    serverId := some selectedServer
    serverName := some ((((TEST_SERVERS.find? (fun s => s.id = selectedServer)).map
      (fun s => s.name)).getD "Auto"))
    dnsLookupTime := dnsLookupTime.bind (fun q => if q = 0 then none else some q)
    stats := some { downloadStats := downloadStats, uploadStats := uploadStats,
                    pingStats := pingStats, jitter := jitter,
                    stabilityScore := stabilityScore, grade := overallGrade,
                    trendSlope := trendSlope } }

/-- The pieces of component state touched when a run completes
(page.tsx:1082-1091): the live display values and the history. -/
structure LiveState where
  history : List SpeedResult
  download : ℚ
  upload : ℚ
  ping : ℚ

/-- page.tsx:1082-1091: always update the three live display values to
the finished result's values; prepend the result to history capped at 50
entries unless the run was started in incognito mode (`incognitoRef` is
written only in `startTest`, so its value at completion is the value at
start). -/
def finishAndRecord (incognito : Bool) (result : SpeedResult) (s : LiveState) : LiveState :=
  { history := if incognito then s.history else (result :: s.history).take 50
    download := result.download
    upload := result.upload
    ping := result.ping }

/-- One detected anomaly entry (page.tsx:1229). -/
structure Anomaly where
  id : String
  timestamp : ℤ
  type : String
  message : String
  severity : String
deriving DecidableEq

/-- Mean of one metric over all of history (page.tsx:1218-1220). -/
def histAvg (f : SpeedResult → ℚ) (history : List SpeedResult) : ℚ :=
  (history.map f).sum / (history.length : ℚ)

/-- Population variance of one metric over all of history — the quantity
under the square root at page.tsx:1223-1225. -/
def histVar (f : SpeedResult → ℚ) (history : List SpeedResult) : ℚ :=
  (history.map (fun h => (f h - histAvg f history) ^ 2)).sum / (history.length : ℚ)

/-- Population standard deviation of one metric over all of history
(page.tsx:1223-1225). -/
noncomputable def histStd (f : SpeedResult → ℚ) (history : List SpeedResult) : ℝ :=
  Real.sqrt (histVar f history)

/-- The `download_drop` entry pushed at page.tsx:1233-1242. -/
def downEntry (avgDown : ℚ) (test : SpeedResult) : Anomaly :=
  let dropPercent := jsRound ((avgDown - test.download) / avgDown * 100)
  { id := test.id, timestamp := test.timestamp, type := "download_drop",
    message := s!"Download dropped {dropPercent}% below average",
    severity := if dropPercent > 50 then "critical" else "warning" }

/-- The `upload_drop` entry pushed at page.tsx:1244-1254. -/
def upEntry (avgUp : ℚ) (test : SpeedResult) : Anomaly :=
  let dropPercent := jsRound ((avgUp - test.upload) / avgUp * 100)
  { id := test.id, timestamp := test.timestamp, type := "upload_drop",
    message := s!"Upload dropped {dropPercent}% below average",
    severity := if dropPercent > 50 then "critical" else "warning" }

/-- The `ping_spike` entry pushed at page.tsx:1256-1266. -/
def pingEntry (avgPing : ℚ) (test : SpeedResult) : Anomaly :=
  let spikePercent := jsRound ((test.ping - avgPing) / avgPing * 100)
  { id := test.id, timestamp := test.timestamp, type := "ping_spike",
    message := s!"Ping spiked {spikePercent}% above average",
    severity := if spikePercent > 100 then "critical" else "warning" }

/-- The three independent anomaly checks run for one scanned test
(page.tsx:1231-1267); the detection threshold is the constant
`threshold = 2` of page.tsx:1228. -/
noncomputable def anomalyChecks (avgDown avgUp avgPing : ℚ)
    (stdDown stdUp stdPing : ℝ) (test : SpeedResult) : List Anomaly :=
  (if (test.download : ℝ) < (avgDown : ℝ) - 2 * stdDown then [downEntry avgDown test] else [])
    ++ (if (test.upload : ℝ) < (avgUp : ℝ) - 2 * stdUp then [upEntry avgUp test] else [])
    ++ (if (test.ping : ℝ) > (avgPing : ℝ) + 2 * stdPing then [pingEntry avgPing test] else [])

/-- The anomaly detector (page.tsx:1214-1270): nothing below 5 results;
otherwise scan the 10 most recent results in order, collect the flagged
entries, and keep the first 5. -/
noncomputable def anomalies (history : List SpeedResult) : List Anomaly :=
  if history.length < 5 then []
  else
    ((history.take 10).flatMap
        (anomalyChecks (histAvg (fun h => h.download) history)
          (histAvg (fun h => h.upload) history)
          (histAvg (fun h => h.ping) history)
          (histStd (fun h => h.download) history)
          (histStd (fun h => h.upload) history)
          (histStd (fun h => h.ping) history))).take 5

/-- Executable form of `anomalyChecks`: each comparison against
`mean ± 2·√variance` is replaced by the equivalent square-free rational
test (`anomalyChecks_eq` proves the equivalence). -/
def anomalyChecksB (avgDown avgUp avgPing varDown varUp varPing : ℚ)
    (test : SpeedResult) : List Anomaly :=
  (if 0 < avgDown - test.download ∧ 4 * varDown < (avgDown - test.download) ^ 2
    then [downEntry avgDown test] else [])
    ++ (if 0 < avgUp - test.upload ∧ 4 * varUp < (avgUp - test.upload) ^ 2
      then [upEntry avgUp test] else [])
    ++ (if 0 < test.ping - avgPing ∧ 4 * varPing < (test.ping - avgPing) ^ 2
      then [pingEntry avgPing test] else [])

/-- Executable form of `anomalies` (see `anomalies_eq_anomaliesDec`). -/
def anomaliesDec (history : List SpeedResult) : List Anomaly :=
  if history.length < 5 then []
  else
    ((history.take 10).flatMap
        (anomalyChecksB (histAvg (fun h => h.download) history)
          (histAvg (fun h => h.upload) history)
          (histAvg (fun h => h.ping) history)
          (histVar (fun h => h.download) history)
          (histVar (fun h => h.upload) history)
          (histVar (fun h => h.ping) history))).take 5

/-- The per-hour average record produced by `peakAnalysis`
(page.tsx:1175-1181). -/
structure HourlyAverage where
  hour : ℕ
  avgDown : ℚ
  avgUp : ℚ
  avgPing : ℚ
  testCount : ℕ
deriving DecidableEq

/-- The four time-of-day partitions of `peakAnalysis` (page.tsx:1203-1208). -/
structure PeriodAverages where
  morning : ℚ
  afternoon : ℚ
  evening : ℚ
  night : ℚ

/-- The value produced by a successful `peakAnalysis` (page.tsx:1199-1210). -/
structure PeakAnalysis where
  bestHour : HourlyAverage
  worstHour : HourlyAverage
  speedDifference : ℚ
  periodAverages : PeriodAverages
  hourlyData : List HourlyAverage

/-- Mean of a list of rationals (the per-hour average computations of
page.tsx:1177-1179, always applied to non-empty lists). -/
def listAvg (xs : List ℚ) : ℚ := xs.sum / (xs.length : ℚ)

/-- The `hourlyAverages` array of page.tsx:1162-1181: group history by
hour of day and average each group.  JavaScript iterates integer-like
object keys in ascending order, hence the scan of `List.range 24`.
`getHours` abstracts `new Date(t).getHours()` (host-local time). -/
def hourlyAverages (getHours : ℤ → ℕ) (history : List SpeedResult) : List HourlyAverage :=
  (List.range 24).filterMap (fun hr =>
    let tests := history.filter (fun t => getHours t.timestamp == hr)
    if tests.isEmpty then none
    else some { hour := hr
                avgDown := listAvg (tests.map (fun t => t.download))
                avgUp := listAvg (tests.map (fun t => t.upload))
                avgPing := listAvg (tests.map (fun t => t.ping))
                testCount := tests.length })

/-- `avgByPeriod` (page.tsx:1196-1197): `0` for an empty partition. -/
def avgByPeriod (hours : List HourlyAverage) : ℚ :=
  if hours.isEmpty then 0
  else (hours.map (fun h => h.avgDown)).sum / (hours.length : ℚ)

/-- `peakAnalysis` (page.tsx:1158-1211).  The JavaScript
`sort((a, b) => b.avgDown - a.avgDown)` is a stable descending sort,
modelled by `mergeSort`.  `none` models the source's `null`. -/
def peakAnalysis (getHours : ℤ → ℕ) (history : List SpeedResult) : Option PeakAnalysis :=
  if history.length < 3 then none
  else
    let hourly := hourlyAverages getHours history
    if hourly.length < 2 then none
    else
      match hourly.mergeSort (fun a b => decide (b.avgDown ≤ a.avgDown)) with
      | [] => none
      | best :: rest =>
        let worst := rest.getLastD best
        some { bestHour := best
               worstHour := worst
               speedDifference := best.avgDown - worst.avgDown
               periodAverages :=
                 { morning := avgByPeriod (hourly.filter (fun h => decide (6 ≤ h.hour) && decide (h.hour < 12)))
                   afternoon := avgByPeriod (hourly.filter (fun h => decide (12 ≤ h.hour) && decide (h.hour < 18)))
                   evening := avgByPeriod (hourly.filter (fun h => decide (18 ≤ h.hour) && decide (h.hour < 22)))
                   night := avgByPeriod (hourly.filter (fun h => decide (22 ≤ h.hour) || decide (h.hour < 6))) }
               hourlyData := hourly }

/-- The latency grading table exactly as §4.3 of the specification words
it (`actual ≤ 0.5·expected → A+`, …), for comparison with
`calculateGrade`. -/
def specLatencyGrade (actual expected : ℚ) : String :=
  if actual ≤ 0.5 * expected then "A+"
  else if actual ≤ 0.75 * expected then "A"
  else if actual ≤ expected then "B"
  else if actual ≤ 1.5 * expected then "C"
  else if actual ≤ 2 * expected then "D"
  else "F"

/-- The throughput grading table exactly as §4.3 of the specification
words it (`actual ≥ 1.2·expected → A+`, …). -/
def specThroughputGrade (actual expected : ℚ) : String :=
  if 1.2 * expected ≤ actual then "A+"
  else if expected ≤ actual then "A"
  else if 0.8 * expected ≤ actual then "B"
  else if 0.6 * expected ≤ actual then "C"
  else if 0.4 * expected ≤ actual then "D"
  else "F"

/-- The grade-point table of §4.3 ({A+:4.3, A:4.0, B:3.0, C:2.0, D:1.0,
F:0}). -/
def specGradePoints (g : String) : ℚ :=
  if g = "A+" then 4.3
  else if g = "A" then 4.0
  else if g = "B" then 3.0
  else if g = "C" then 2.0
  else if g = "D" then 1.0
  else 0

/-- The combine step of §4.3: average the three grade points, remap via
{≥4.2→A+, ≥3.5→A, ≥2.5→B, ≥1.5→C, ≥0.5→D, else F}. -/
def specCombineGrades (g1 g2 g3 : String) : String :=
  let avg := (specGradePoints g1 + specGradePoints g2 + specGradePoints g3) / 3
  if 4.2 ≤ avg then "A+"
  else if 3.5 ≤ avg then "A"
  else if 2.5 ≤ avg then "B"
  else if 1.5 ≤ avg then "C"
  else if 0.5 ≤ avg then "D"
  else "F"

/-- A minimal concrete `SpeedResult` for concrete-input theorems. -/
def mkRes (id : String) (d u p : ℚ) : SpeedResult :=
  { id := id, timestamp := 0, download := d, upload := u, ping := p }

/-- Ten results whose newest download (8.9) sits more than two standard
deviations below the download mean 17.9 with a relative drop of
9/17.9 ≈ 50.28 % — above 50 % but rounding to 50. -/
def chDrop : List SpeedResult :=
  mkRes "b" 8.9 10 10 :: List.replicate 9 (mkRes "g" 18.9 10 10)

/-- Ten results whose newest entry trips all three anomaly checks at
once (download and upload 9 below their mean 10 with σ = 3; ping 9 above
its mean 10 with σ = 3). -/
def chTriple : List SpeedResult :=
  mkRes "x" 1 1 19 :: List.replicate 9 (mkRes "g" 11 11 9)

/-- Fifty results: the five newest each trip a warning-level download
drop, the sixth-newest trips a critical one (download mean 100,
variance 643/5), so the scan-order cap of five drops the critical
entry. -/
def capHist : List SpeedResult :=
  List.replicate 5 (mkRes "m" 75 100 10)
    ++ mkRes "s" 49 100 10 :: List.replicate 44 (mkRes "h" 104 100 10)

/-! ## Helper lemmas -/

lemma sumAbsDiff_eq_zip (xs : List ℚ) :
    sumAbsDiff xs = ((xs.zip xs.tail).map (fun p => |p.2 - p.1|)).sum := by
  induction xs with
  | nil => simp [sumAbsDiff]
  | cons a t ih =>
    cases t with
    | nil => simp [sumAbsDiff]
    | cons b r =>
      simp only [sumAbsDiff, ih, List.tail_cons, List.zip_cons_cons, List.map_cons,
        List.sum_cons]

lemma rangeCastSum (n : ℕ) :
    ((List.range n).map (fun i : ℕ => (i : ℚ))).sum = (n : ℚ) * ((n : ℚ) - 1) / 2 := by
  induction n with
  | zero => simp
  | succ m ih =>
    rw [List.range_succ, List.map_append, List.sum_append, ih]
    simp only [List.map_cons, List.map_nil, List.sum_cons, List.sum_nil]
    push_cast
    ring

lemma trendSlope_eq_olsSlope (xs : List ℚ) : calculateTrendSlope xs = olsSlope xs := by
  match xs with
  | [] => simp [calculateTrendSlope, olsSlope]
  | [a] => norm_num [calculateTrendSlope, olsSlope, List.range_succ]
  | a :: b :: t =>
    have hn : ¬((a :: b :: t).length < 2) := by simp
    have hne : (((a :: b :: t).length : ℕ) : ℚ) ≠ 0 := by
      exact Nat.cast_ne_zero.mpr (by simp)
    have hx : ((List.range (a :: b :: t).length).map (fun i : ℕ => (i : ℚ))).sum /
        (((a :: b :: t).length : ℕ) : ℚ) = ((((a :: b :: t).length : ℕ) : ℚ) - 1) / 2 := by
      rw [rangeCastSum, mul_div_assoc, mul_div_cancel_left₀ _ hne]
    simp only [calculateTrendSlope, olsSlope, if_neg hn, hx]

lemma gradeValues_eq_specGradePoints (g : String) : gradeValues g = specGradePoints g := by
  unfold gradeValues specGradePoints
  rfl

lemma cds_mean (xs : List ℚ) (h : xs ≠ []) :
    (calculateDetailedStats xs).mean = xs.sum / (xs.length : ℚ) := by
  rw [calculateDetailedStats, if_neg h]
  simp [List.length_insertionSort]

lemma cds_stdDev (xs : List ℚ) (h : xs ≠ []) :
    (calculateDetailedStats xs).stdDev =
      Real.sqrt (((xs.map (fun v => (v - xs.sum / (xs.length : ℚ)) ^ 2)).sum /
        (xs.length : ℚ) : ℚ)) := by
  rw [calculateDetailedStats, if_neg h]
  simp [List.length_insertionSort]

lemma length_cast_ne_zero {xs : List ℚ} (h : xs ≠ []) : ((xs.length : ℕ) : ℚ) ≠ 0 := by
  simpa using h

lemma cds_mean_const {xs : List ℚ} {c : ℚ} (hne : xs ≠ []) (hall : ∀ x ∈ xs, x = c) :
    (calculateDetailedStats xs).mean = c := by
  rw [cds_mean xs hne, List.sum_eq_card_nsmul xs c hall, nsmul_eq_mul,
    mul_div_cancel_left₀ _ (length_cast_ne_zero hne)]

lemma cds_stdDev_const {xs : List ℚ} {c : ℚ} (hne : xs ≠ []) (hall : ∀ x ∈ xs, x = c) :
    (calculateDetailedStats xs).stdDev = 0 := by
  rw [cds_stdDev xs hne]
  have hz : (xs.map (fun v => (v - xs.sum / (xs.length : ℚ)) ^ 2)).sum = 0 := by
    apply List.sum_eq_zero
    intro x hx
    rcases List.mem_map.1 hx with ⟨v, hv, rfl⟩
    have hm : xs.sum / (xs.length : ℚ) = c := by
      rw [List.sum_eq_card_nsmul xs c hall, nsmul_eq_mul,
        mul_div_cancel_left₀ _ (length_cast_ne_zero hne)]
    rw [hall v hv, hm]
    ring
  rw [hz]
  simp

lemma cds_median (xs : List ℚ) (h : xs ≠ []) :
    (calculateDetailedStats xs).median =
      if xs.length % 2 = 1 then (xs.insertionSort (· ≤ ·)).getD (xs.length / 2) 0
      else ((xs.insertionSort (· ≤ ·)).getD (xs.length / 2 - 1) 0 +
            (xs.insertionSort (· ≤ ·)).getD (xs.length / 2) 0) / 2 := by
  rw [calculateDetailedStats, if_neg h]
  simp [List.length_insertionSort]

lemma cds_min (xs : List ℚ) (h : xs ≠ []) :
    (calculateDetailedStats xs).min = (xs.insertionSort (· ≤ ·)).getD 0 0 := by
  rw [calculateDetailedStats, if_neg h]

lemma cds_max (xs : List ℚ) (h : xs ≠ []) :
    (calculateDetailedStats xs).max = (xs.insertionSort (· ≤ ·)).getD (xs.length - 1) 0 := by
  rw [calculateDetailedStats, if_neg h]
  simp [List.length_insertionSort]

lemma cds_p95 (xs : List ℚ) (h : xs ≠ []) :
    (calculateDetailedStats xs).p95 =
      (xs.insertionSort (· ≤ ·)).getD ((⌈(xs.length : ℚ) * 0.95⌉ - 1).toNat) 0 := by
  rw [calculateDetailedStats, if_neg h]
  simp [List.length_insertionSort]

lemma cds_p99 (xs : List ℚ) (h : xs ≠ []) :
    (calculateDetailedStats xs).p99 =
      (xs.insertionSort (· ≤ ·)).getD ((⌈(xs.length : ℚ) * 0.99⌉ - 1).toNat) 0 := by
  rw [calculateDetailedStats, if_neg h]
  simp [List.length_insertionSort]

lemma sorted_head_le {l : List ℚ} (hs : l.Sorted (· ≤ ·)) : ∀ a ∈ l, l.getD 0 0 ≤ a := by
  cases l with
  | nil => simp
  | cons x t =>
    intro a ha
    rcases List.mem_cons.1 ha with rfl | ha
    · simp
    · simpa using List.rel_of_sorted_cons hs a ha

lemma sorted_le_getLast {l : List ℚ} (hs : l.Sorted (· ≤ ·)) :
    ∀ a ∈ l, a ≤ l.getD (l.length - 1) 0 := by
  induction l with
  | nil => simp
  | cons x t ih =>
    intro a ha
    cases t with
    | nil =>
      rcases List.mem_cons.1 ha with rfl | ha
      · simp
      · simp at ha
    | cons y r =>
      have hidx : (x :: y :: r).length - 1 = ((y :: r).length - 1) + 1 := by
        simp
      rw [hidx, List.getD_cons_succ]
      rcases List.mem_cons.1 ha with rfl | ha
      · have hmem : (y :: r).getD ((y :: r).length - 1) 0 ∈ (y :: r) := by
          rw [List.getD_eq_getElem (y :: r) 0 (by simp)]
          exact List.getElem_mem _
        exact List.rel_of_sorted_cons hs _ hmem
      · exact ih hs.of_cons a ha

lemma popVar_nonneg (xs : List ℚ) :
    0 ≤ (xs.map (fun v => (v - xs.sum / (xs.length : ℚ)) ^ 2)).sum / (xs.length : ℚ) := by
  apply div_nonneg
  · apply List.sum_nonneg
    intro x hx
    rcases List.mem_map.1 hx with ⟨v, _, rfl⟩
    positivity
  · positivity

/-! ## Claim theorems -/

/-- C1: `calculateDetailedStats` of a non-empty list has the arithmetic
mean, the median/min/max/p95/p99 read off the sorted copy exactly as the
specification's formulas say (nearest-rank percentile at
`ceil(n·q) - 1`), and `stdDev` is the population standard deviation
(non-negative square root of `Σ(x-mean)²/n`); the empty list yields the
all-zero stats. -/
theorem detailedStats_spec (xs l : List ℚ) :
    calculateDetailedStats [] =
      { mean := 0, median := 0, min := 0, max := 0, stdDev := 0, p95 := 0, p99 := 0 } ∧
    (xs ≠ [] → l.Perm xs → l.Sorted (· ≤ ·) →
      (calculateDetailedStats xs).mean = xs.sum / (xs.length : ℚ) ∧
      (calculateDetailedStats xs).median =
        (if xs.length % 2 = 1 then l.getD (xs.length / 2) 0
         else (l.getD (xs.length / 2 - 1) 0 + l.getD (xs.length / 2) 0) / 2) ∧
      (calculateDetailedStats xs).min = l.getD 0 0 ∧
      (∀ a ∈ xs, (calculateDetailedStats xs).min ≤ a) ∧
      (calculateDetailedStats xs).max = l.getD (xs.length - 1) 0 ∧
      (∀ a ∈ xs, a ≤ (calculateDetailedStats xs).max) ∧
      0 ≤ (calculateDetailedStats xs).stdDev ∧
      (calculateDetailedStats xs).stdDev ^ 2 =
        (((xs.map (fun v => (v - xs.sum / (xs.length : ℚ)) ^ 2)).sum / (xs.length : ℚ) : ℚ) : ℝ) ∧
      (calculateDetailedStats xs).p95 = l.getD ((⌈(xs.length : ℚ) * 0.95⌉ - 1).toNat) 0 ∧
      (calculateDetailedStats xs).p99 = l.getD ((⌈(xs.length : ℚ) * 0.99⌉ - 1).toNat) 0) := by
  refine ⟨by simp [calculateDetailedStats], fun hne hperm hsort => ?_⟩
  have hl : l = xs.insertionSort (· ≤ ·) := by
    refine List.eq_of_perm_of_sorted ?_ hsort (List.sorted_insertionSort _ xs)
    exact hperm.trans (List.perm_insertionSort _ xs).symm
  subst hl
  have hsorted := List.sorted_insertionSort (α := ℚ) (· ≤ ·) xs
  have hmem : ∀ a ∈ xs, a ∈ xs.insertionSort (· ≤ ·) := fun a ha =>
    (List.perm_insertionSort (· ≤ ·) xs).mem_iff.2 ha
  refine ⟨cds_mean xs hne, cds_median xs hne, cds_min xs hne, ?_, cds_max xs hne, ?_, ?_, ?_,
    cds_p95 xs hne, cds_p99 xs hne⟩
  · intro a ha
    rw [cds_min xs hne]
    exact sorted_head_le hsorted a (hmem a ha)
  · intro a ha
    rw [cds_max xs hne]
    have := sorted_le_getLast hsorted a (hmem a ha)
    rwa [List.length_insertionSort] at this
  · rw [cds_stdDev xs hne]
    exact Real.sqrt_nonneg _
  · rw [cds_stdDev xs hne]
    exact Real.sq_sqrt (by exact_mod_cast popVar_nonneg xs)

/-- C7: `calculateJitter` of a latency sample list in arrival order is
the mean of `|sample[i] - sample[i-1]|` over `i = 1..n-1`, is `0` for
lists of length below 2, and `calculateJitter [10, 15, 12] = 4`. -/
theorem jitter_spec (xs : List ℚ) :
    (xs.length < 2 → calculateJitter xs = 0) ∧
    (2 ≤ xs.length →
      calculateJitter xs =
        ((xs.zip xs.tail).map (fun p => |p.2 - p.1|)).sum / ((xs.length - 1 : ℕ) : ℚ)) ∧
    calculateJitter [10, 15, 12] = 4 := by
  refine ⟨fun h => by rw [calculateJitter, if_pos h], fun h => ?_,
    by norm_num [calculateJitter, sumAbsDiff]⟩
  rw [calculateJitter, if_neg (by omega), sumAbsDiff_eq_zip]

/-- C8: `calculateTrendSlope` is the ordinary least-squares slope of
value against 0-based index (`olsSlope`, written with the true index
mean `Σi/n`), is `0` for fewer than 2 samples, is positive on
`[1,2,3,4,5]`, negative on `[5,4,3,2,1]` and `0` on `[3,3,3]`. -/
theorem trendSlope_spec (xs : List ℚ) :
    calculateTrendSlope xs = olsSlope xs ∧
    (xs.length < 2 → calculateTrendSlope xs = 0) ∧
    0 < calculateTrendSlope [1, 2, 3, 4, 5] ∧
    calculateTrendSlope [5, 4, 3, 2, 1] < 0 ∧
    calculateTrendSlope [3, 3, 3] = 0 := by
  refine ⟨trendSlope_eq_olsSlope xs,
    fun h => by rw [calculateTrendSlope, if_pos h], ?_, ?_, ?_⟩
  · norm_num [calculateTrendSlope, List.enum, List.enumFrom]
  · norm_num [calculateTrendSlope, List.enum, List.enumFrom]
  · norm_num [calculateTrendSlope, List.enum, List.enumFrom]

/-- C3: `calculateGrade` realises exactly the specification's latency
and throughput threshold tables, the overall grade is the
map-average-remap of the specification, and combining {A+, A, B}
yields "A". -/
theorem grading_spec (a e : ℚ) (g1 g2 g3 : String) :
    calculateGrade a e .ping = specLatencyGrade a e ∧
    calculateGrade a e .download = specThroughputGrade a e ∧
    calculateGrade a e .upload = specThroughputGrade a e ∧
    combineGrades g1 g2 g3 = specCombineGrades g1 g2 g3 ∧
    combineGrades "A+" "A" "B" = "A" := by
  refine ⟨?_, ?_, ?_, ?_, by simp +decide only [combineGrades, gradeValues]; norm_num⟩
  · simp only [calculateGrade, specLatencyGrade, mul_comm]
  · simp only [calculateGrade, specThroughputGrade, ge_iff_le, mul_comm]
  · simp only [calculateGrade, specThroughputGrade, ge_iff_le, mul_comm]
  · simp only [combineGrades, specCombineGrades, gradeValues_eq_specGradePoints, ge_iff_le]

/-- C5: completing a run always pushes the finished result's values to
the live display; with incognito off the result is prepended to history
truncated at 50 entries (newest-first), with incognito on history is
unchanged. -/
theorem history_record_spec (incognito : Bool) (r : SpeedResult) (s : LiveState) :
    (finishAndRecord incognito r s).download = r.download ∧
    (finishAndRecord incognito r s).upload = r.upload ∧
    (finishAndRecord incognito r s).ping = r.ping ∧
    (incognito = true → (finishAndRecord incognito r s).history = s.history) ∧
    (incognito = false →
      (finishAndRecord incognito r s).history = (r :: s.history).take 50 ∧
      (finishAndRecord incognito r s).history.head? = some r ∧
      (finishAndRecord incognito r s).history.length = min (s.history.length + 1) 50 ∧
      (finishAndRecord incognito r s).history.length ≤ 50) := by
  refine ⟨rfl, rfl, rfl, fun h => by simp [finishAndRecord, h], fun h => ?_⟩
  subst h
  refine ⟨by simp [finishAndRecord], by simp [finishAndRecord], ?_, ?_⟩
  · simp [finishAndRecord, List.length_take]
    omega
  · simp [finishAndRecord, List.length_take]

/-- C6: `calculateStabilityScore` returns 0 on zero mean, otherwise
rounds the clamp of `100 - (stdDev/mean)·200` to `[0, 100]`; on the
stats of any constant non-empty sample list with non-zero value it is
exactly 100. -/
theorem stability_spec (stats : DetailedStats) (xs : List ℚ) (c : ℚ) :
    (stats.mean = 0 → calculateStabilityScore stats = 0) ∧
    (stats.mean ≠ 0 →
      calculateStabilityScore stats =
        jsRoundR (max 0 (min 100 (100 - stats.stdDev / (stats.mean : ℝ) * 200)))) ∧
    (xs ≠ [] → (∀ x ∈ xs, x = c) → c ≠ 0 →
      calculateStabilityScore (calculateDetailedStats xs) = 100) := by
  refine ⟨fun h => by rw [calculateStabilityScore, if_pos h],
    fun h => by rw [calculateStabilityScore, if_neg h], fun hne hall hc => ?_⟩
  have hmean := cds_mean_const hne hall
  have hsd := cds_stdDev_const hne hall
  rw [calculateStabilityScore, if_neg (by rw [hmean]; exact hc)]
  rw [hsd]
  norm_num [jsRoundR]

/-- C2: the Result assembled at the end of the upload phase takes
download/upload from the medians of their DetailedStats rounded to one
decimal, ping from the ping median rounded to the nearest integer,
jitter from the ping buffer, stability from the download DetailedStats,
and the combined trend slope `(downloadTrend + uploadTrend - pingTrend)/3`
where each trend is the least-squares slope (`olsSlope`) of its raw
buffer; the grade is the combined grade of the three per-metric
grades. -/
theorem result_assembly_spec (down up ping : List ℚ) (ispDown ispUp ispPing : ℚ)
    (id : String) (ts : ℤ) (networkType location selectedServer : String) (dns : Option ℚ) :
    (finishRun down up ping ispDown ispUp ispPing id ts networkType location selectedServer
        dns).download = (jsRound ((calculateDetailedStats down).median * 10) : ℚ) / 10 ∧
    (finishRun down up ping ispDown ispUp ispPing id ts networkType location selectedServer
        dns).upload = (jsRound ((calculateDetailedStats up).median * 10) : ℚ) / 10 ∧
    (finishRun down up ping ispDown ispUp ispPing id ts networkType location selectedServer
        dns).ping = (jsRound (calculateDetailedStats ping).median : ℚ) ∧
    (finishRun down up ping ispDown ispUp ispPing id ts networkType location selectedServer
        dns).stats = some
      { downloadStats := calculateDetailedStats down
        uploadStats := calculateDetailedStats up
        pingStats := calculateDetailedStats ping
        jitter := calculateJitter ping
        stabilityScore := calculateStabilityScore (calculateDetailedStats down)
        grade := combineGrades
          (calculateGrade (calculateDetailedStats down).median ispDown .download)
          (calculateGrade (calculateDetailedStats up).median ispUp .upload)
          (calculateGrade (calculateDetailedStats ping).median ispPing .ping)
        trendSlope := (olsSlope down + olsSlope up - olsSlope ping) / 3 } := by
  refine ⟨rfl, rfl, rfl, ?_⟩
  simp only [finishRun, trendSlope_eq_olsSlope]

lemma sq_lt_cond_below (x a v : ℚ) (hv : 0 ≤ v) :
    ((x : ℝ) < (a : ℝ) - 2 * Real.sqrt ((v : ℚ) : ℝ)) ↔ (0 < a - x ∧ 4 * v < (a - x) ^ 2) := by
  have hs0 : (0 : ℝ) ≤ Real.sqrt ((v : ℚ) : ℝ) := Real.sqrt_nonneg _
  have hs2 : Real.sqrt ((v : ℚ) : ℝ) ^ 2 = ((v : ℚ) : ℝ) :=
    Real.sq_sqrt (by exact_mod_cast hv)
  constructor
  · intro h
    have h1 : 2 * Real.sqrt ((v : ℚ) : ℝ) < (a : ℝ) - x := by linarith
    have h2 : (0 : ℝ) < (a : ℝ) - x := by linarith
    refine ⟨by exact_mod_cast h2, ?_⟩
    have h3 : (2 * Real.sqrt ((v : ℚ) : ℝ)) ^ 2 < ((a : ℝ) - x) ^ 2 :=
      pow_lt_pow_left₀ h1 (by positivity) (by norm_num)
    have h4 : (4 : ℝ) * ((v : ℚ) : ℝ) < ((a : ℝ) - x) ^ 2 := by nlinarith [hs2]
    exact_mod_cast h4
  · rintro ⟨h1, h2⟩
    have h1r : (0 : ℝ) < (a : ℝ) - x := by exact_mod_cast h1
    have h2r : (2 * Real.sqrt ((v : ℚ) : ℝ)) ^ 2 < ((a : ℝ) - x) ^ 2 := by
      have h4 : (4 : ℝ) * ((v : ℚ) : ℝ) < ((a : ℝ) - x) ^ 2 := by exact_mod_cast h2
      nlinarith [hs2]
    have h5 : 2 * Real.sqrt ((v : ℚ) : ℝ) < (a : ℝ) - x :=
      lt_of_pow_lt_pow_left₀ 2 h1r.le h2r
    linarith

lemma sq_lt_cond_above (x a v : ℚ) (hv : 0 ≤ v) :
    ((x : ℝ) > (a : ℝ) + 2 * Real.sqrt ((v : ℚ) : ℝ)) ↔ (0 < x - a ∧ 4 * v < (x - a) ^ 2) := by
  have h := sq_lt_cond_below (-x) (-a) v hv
  constructor
  · intro hx
    have : ((-x : ℚ) : ℝ) < ((-a : ℚ) : ℝ) - 2 * Real.sqrt ((v : ℚ) : ℝ) := by
      push_cast
      linarith
    rcases h.1 this with ⟨h1, h2⟩
    exact ⟨by linarith, by nlinarith [h2]⟩
  · rintro ⟨h1, h2⟩
    have := h.2 ⟨by linarith, by nlinarith [h2]⟩
    have h3 : ((-x : ℚ) : ℝ) < ((-a : ℚ) : ℝ) - 2 * Real.sqrt ((v : ℚ) : ℝ) := this
    push_cast at h3
    simp only [gt_iff_lt]
    linarith

lemma histVar_nonneg (f : SpeedResult → ℚ) (history : List SpeedResult) :
    0 ≤ histVar f history := by
  apply div_nonneg
  · apply List.sum_nonneg
    intro x hx
    rcases List.mem_map.1 hx with ⟨v, _, rfl⟩
    positivity
  · positivity

lemma anomalyChecks_sqrt_eq (aD aU aP vD vU vP : ℚ) (hD : 0 ≤ vD) (hU : 0 ≤ vU)
    (hP : 0 ≤ vP) (t : SpeedResult) :
    anomalyChecks aD aU aP (Real.sqrt ((vD : ℚ) : ℝ)) (Real.sqrt ((vU : ℚ) : ℝ))
      (Real.sqrt ((vP : ℚ) : ℝ)) t = anomalyChecksB aD aU aP vD vU vP t := by
  unfold anomalyChecks anomalyChecksB
  rw [if_congr (sq_lt_cond_below t.download aD vD hD) rfl rfl,
    if_congr (sq_lt_cond_below t.upload aU vU hU) rfl rfl,
    if_congr (sq_lt_cond_above t.ping aP vP hP) rfl rfl]

lemma anomalies_eq_anomaliesDec (history : List SpeedResult) :
    anomalies history = anomaliesDec history := by
  unfold anomalies anomaliesDec histStd
  by_cases h : history.length < 5
  · rw [if_pos h, if_pos h]
  · rw [if_neg h, if_neg h]
    have he : anomalyChecks (histAvg (fun h => h.download) history)
        (histAvg (fun h => h.upload) history) (histAvg (fun h => h.ping) history)
        (Real.sqrt ((histVar (fun h => h.download) history : ℚ) : ℝ))
        (Real.sqrt ((histVar (fun h => h.upload) history : ℚ) : ℝ))
        (Real.sqrt ((histVar (fun h => h.ping) history : ℚ) : ℝ)) =
      anomalyChecksB (histAvg (fun h => h.download) history)
        (histAvg (fun h => h.upload) history) (histAvg (fun h => h.ping) history)
        (histVar (fun h => h.download) history) (histVar (fun h => h.upload) history)
        (histVar (fun h => h.ping) history) :=
      funext fun t => anomalyChecks_sqrt_eq _ _ _ _ _ _ (histVar_nonneg _ _)
        (histVar_nonneg _ _) (histVar_nonneg _ _) t
    rw [he]

lemma histAvg_replicate (n : ℕ) (hn : n ≠ 0) (f : SpeedResult → ℚ) (r : SpeedResult) :
    histAvg f (List.replicate n r) = f r := by
  rw [histAvg, List.map_replicate, List.sum_replicate, List.length_replicate, nsmul_eq_mul,
    mul_div_cancel_left₀ _ (Nat.cast_ne_zero.mpr hn)]

lemma histVar_replicate (n : ℕ) (hn : n ≠ 0) (f : SpeedResult → ℚ) (r : SpeedResult) :
    histVar f (List.replicate n r) = 0 := by
  rw [histVar, histAvg_replicate n hn, List.map_replicate]
  simp

/-- C4 (amended): anomaly detection is empty for fewer than 5 results,
returns at most 5 entries, is empty on 5 identical results, and every
returned entry comes from one of the 10 most recent results whose
download/upload lies more than two population standard deviations below
its history mean or whose ping lies more than two above, with severity
`critical` exactly when the rounded integer drop percentage exceeds 50
(throughput) or the rounded spike percentage exceeds 100 (ping). -/
theorem anomaly_detection_spec (history : List SpeedResult) (r : SpeedResult) :
    (history.length < 5 → anomalies history = []) ∧
    (anomalies history).length ≤ 5 ∧
    anomalies (List.replicate 5 r) = [] ∧
    (∀ a ∈ anomalies history, ∃ t ∈ history.take 10,
      a.id = t.id ∧ a.timestamp = t.timestamp ∧
      ((a.type = "download_drop" ∧
          (t.download : ℝ) < (histAvg (fun h => h.download) history : ℝ) -
            2 * histStd (fun h => h.download) history ∧
          a.severity = (if jsRound ((histAvg (fun h => h.download) history - t.download) /
              histAvg (fun h => h.download) history * 100) > 50
            then "critical" else "warning")) ∨
        (a.type = "upload_drop" ∧
          (t.upload : ℝ) < (histAvg (fun h => h.upload) history : ℝ) -
            2 * histStd (fun h => h.upload) history ∧
          a.severity = (if jsRound ((histAvg (fun h => h.upload) history - t.upload) /
              histAvg (fun h => h.upload) history * 100) > 50
            then "critical" else "warning")) ∨
        (a.type = "ping_spike" ∧
          (t.ping : ℝ) > (histAvg (fun h => h.ping) history : ℝ) +
            2 * histStd (fun h => h.ping) history ∧
          a.severity = (if jsRound ((t.ping - histAvg (fun h => h.ping) history) /
              histAvg (fun h => h.ping) history * 100) > 100
            then "critical" else "warning")))) := by
  refine ⟨fun h => by rw [anomalies, if_pos h], ?_, ?_, ?_⟩
  · rw [anomalies]
    split_ifs
    · simp
    · exact List.length_take_le 5 _
  · rw [anomalies_eq_anomaliesDec, anomaliesDec, if_neg (by simp)]
    rw [histAvg_replicate 5 (by norm_num), histAvg_replicate 5 (by norm_num),
      histAvg_replicate 5 (by norm_num), histVar_replicate 5 (by norm_num),
      histVar_replicate 5 (by norm_num), histVar_replicate 5 (by norm_num)]
    simp [anomalyChecksB, List.take_replicate, List.replicate_succ]
  · intro a ha
    by_cases h5 : history.length < 5
    · rw [anomalies, if_pos h5] at ha
      simp at ha
    · rw [anomalies, if_neg h5] at ha
      rcases List.mem_flatMap.1 (List.mem_of_mem_take ha) with ⟨t, ht, hmem⟩
      refine ⟨t, ht, ?_⟩
      rw [anomalyChecks, histStd, histStd, histStd] at hmem
      simp only [List.mem_append] at hmem
      rcases hmem with (hm | hm) | hm
      · split_ifs at hm with hc
        · rw [List.mem_singleton.1 hm]
          exact ⟨rfl, rfl, Or.inl ⟨rfl, by rw [histStd]; exact hc, rfl⟩⟩
        · simp at hm
      · split_ifs at hm with hc
        · rw [List.mem_singleton.1 hm]
          exact ⟨rfl, rfl, Or.inr (Or.inl ⟨rfl, by rw [histStd]; exact hc, rfl⟩)⟩
        · simp at hm
      · split_ifs at hm with hc
        · rw [List.mem_singleton.1 hm]
          exact ⟨rfl, rfl, Or.inr (Or.inr ⟨rfl, by rw [histStd]; exact hc, rfl⟩)⟩
        · simp at hm

/-- C4 counterexample: in `chDrop` the newest result's download drop is
more than 2σ below the mean and its relative size `9/17.9` exceeds 50 %,
yet the detector assigns severity `warning`, because the source rounds
the percentage to the integer 50 before comparing with `> 50`.  This
refutes "severity critical when the relative drop exceeds 50%" as
stated. -/
theorem anomaly_severity_counterexample :
    (anomalies chDrop).map (fun a => (a.type, a.severity)) = [("download_drop", "warning")] ∧
    histAvg (fun h => h.download) chDrop = 17.9 ∧
    ((17.9 : ℚ) - 8.9) / (17.9 : ℚ) > 1/2 := by
  refine ⟨?_, ?_, by norm_num⟩
  · rw [anomalies_eq_anomaliesDec]
    norm_num [anomaliesDec, chDrop, mkRes, histAvg, histVar, anomalyChecksB,
      downEntry, upEntry, pingEntry, jsRound, List.replicate_succ]
  · norm_num [chDrop, mkRes, histAvg, List.replicate_succ]

/-- C10: each scanned result contributes up to three anomaly entries
(download, upload and ping checks are independent and every entry
carries that result's id) — `chTriple`'s newest result indeed yields all
three — and the five-entry cap is applied to the flag list in scan order
over the 10 newest results: in `capHist` the full flag list is five
warnings followed by one critical flag, and the output keeps exactly the
first five warnings, dropping the more severe later flag. -/
theorem anomaly_cap_order_spec :
    (∀ aD aU aP : ℚ, ∀ sD sU sP : ℝ, ∀ t : SpeedResult,
      (anomalyChecks aD aU aP sD sU sP t).length ≤ 3 ∧
      (anomalyChecks aD aU aP sD sU sP t).all (fun a => a.id == t.id) = true) ∧
    ((anomalies chTriple).map (fun a => (a.id, a.type, a.severity)) =
      [("x", "download_drop", "critical"), ("x", "upload_drop", "critical"),
        ("x", "ping_spike", "warning")]) ∧
    (((capHist.take 10).flatMap (anomalyChecksB 100 100 10 (643/5) 0 0)).map
        (fun a => a.severity) =
      ["warning", "warning", "warning", "warning", "warning", "critical"]) ∧
    (anomalies capHist = ((capHist.take 10).flatMap
        (anomalyChecks 100 100 10 (Real.sqrt ((643/5 : ℚ) : ℝ)) (Real.sqrt ((0 : ℚ) : ℝ))
          (Real.sqrt ((0 : ℚ) : ℝ)))).take 5) ∧
    ((anomalies capHist).map (fun a => a.severity) =
      ["warning", "warning", "warning", "warning", "warning"]) := by
  have hne5 : ¬(capHist.length < 5) := by norm_num [capHist]
  have hAvgD : histAvg (fun h => h.download) capHist = 100 := by
    norm_num [capHist, mkRes, histAvg, nsmul_eq_mul]
  have hAvgU : histAvg (fun h => h.upload) capHist = 100 := by
    norm_num [capHist, mkRes, histAvg, nsmul_eq_mul]
  have hAvgP : histAvg (fun h => h.ping) capHist = 10 := by
    norm_num [capHist, mkRes, histAvg, nsmul_eq_mul]
  have hVarD : histVar (fun h => h.download) capHist = 643/5 := by
    rw [histVar]
    simp only [hAvgD]
    norm_num [capHist, mkRes, nsmul_eq_mul]
  have hVarU : histVar (fun h => h.upload) capHist = 0 := by
    rw [histVar]
    simp only [hAvgU]
    norm_num [capHist, mkRes, nsmul_eq_mul]
  have hVarP : histVar (fun h => h.ping) capHist = 0 := by
    rw [histVar]
    simp only [hAvgP]
    norm_num [capHist, mkRes, nsmul_eq_mul]
  have h4 : anomalies capHist = ((capHist.take 10).flatMap
      (anomalyChecks 100 100 10 (Real.sqrt ((643/5 : ℚ) : ℝ)) (Real.sqrt ((0 : ℚ) : ℝ))
        (Real.sqrt ((0 : ℚ) : ℝ)))).take 5 := by
    rw [anomalies, if_neg hne5]
    simp only [histStd, hAvgD, hAvgU, hAvgP, hVarD, hVarU, hVarP]
  have hB : anomalyChecks (100 : ℚ) 100 10 (Real.sqrt ((643/5 : ℚ) : ℝ))
      (Real.sqrt ((0 : ℚ) : ℝ)) (Real.sqrt ((0 : ℚ) : ℝ)) =
      anomalyChecksB 100 100 10 (643/5) 0 0 :=
    funext fun t => anomalyChecks_sqrt_eq _ _ _ _ _ _ (by norm_num) (by norm_num)
      (by norm_num) t
  have htake : capHist.take 10 = List.replicate 5 (mkRes "m" 75 100 10)
      ++ mkRes "s" 49 100 10 :: List.replicate 4 (mkRes "h" 104 100 10) := by
    simp [capHist, List.take_append_eq_append_take, List.take_replicate]
  have h3 : ((capHist.take 10).flatMap (anomalyChecksB 100 100 10 (643/5) 0 0)).map
      (fun a => a.severity) =
      ["warning", "warning", "warning", "warning", "warning", "critical"] := by
    rw [htake]
    norm_num [anomalyChecksB, mkRes, downEntry, upEntry, pingEntry, jsRound,
      List.replicate_succ]
  refine ⟨?_, ?_, h3, h4, ?_⟩
  · intro aD aU aP sD sU sP t
    constructor
    · rw [anomalyChecks]
      split_ifs <;> simp
    · rw [anomalyChecks]
      split_ifs <;> simp [downEntry, upEntry, pingEntry]
  · rw [anomalies_eq_anomaliesDec]
    norm_num [anomaliesDec, chTriple, mkRes, histAvg, histVar, anomalyChecksB,
      downEntry, upEntry, pingEntry, jsRound, List.replicate_succ]
  · rw [h4, hB, List.map_take, h3]
    norm_num

lemma filterMap_length_le_one {α β : Type} (l : List α) (hnd : l.Nodup) (f : α → Option β)
    (a0 : α) (h : ∀ a ∈ l, (f a).isSome → a = a0) : (l.filterMap f).length ≤ 1 := by
  induction l with
  | nil => simp
  | cons x t ih =>
    rw [List.filterMap_cons]
    cases hfx : f x with
    | none => exact ih (List.nodup_cons.1 hnd).2 (fun a ha hs => h a (List.mem_cons_of_mem _ ha) hs)
    | some b =>
      have hx : x = a0 := h x (List.mem_cons_self _ _) (by simp [hfx])
      have ht : t.filterMap f = [] := by
        rw [List.filterMap_eq_nil_iff]
        intro a ha
        by_contra hne
        have ha0 : a = a0 :=
          h a (List.mem_cons_of_mem _ ha) (Option.isSome_iff_ne_none.2 hne)
        have hmem : x ∈ t := (hx.trans ha0.symm) ▸ ha
        exact (List.nodup_cons.1 hnd).1 hmem
      simp [ht]

lemma getLastD_min_of_pairwise (rest : List HourlyAverage) (b : HourlyAverage)
    (h : (b :: rest).Pairwise (fun a c => c.avgDown ≤ a.avgDown)) :
    rest.getLastD b ∈ b :: rest ∧ ∀ g ∈ b :: rest, (rest.getLastD b).avgDown ≤ g.avgDown := by
  induction rest generalizing b with
  | nil =>
    refine ⟨by simp, ?_⟩
    intro g hg
    rcases List.mem_cons.1 hg with rfl | hg
    · exact le_refl _
    · simp at hg
  | cons y r ih =>
    have hih := ih y (List.pairwise_cons.1 h).2
    rw [List.getLastD_cons]
    refine ⟨List.mem_cons_of_mem _ hih.1, ?_⟩
    intro g hg
    rcases List.mem_cons.1 hg with rfl | hg
    · exact (List.pairwise_cons.1 h).1 _ hih.1
    · exact hih.2 g hg

/-- C9: peak analysis is absent below 3 results and absent when all
results fall in a single hour-of-day group; when present, `bestHour` and
`worstHour` are hour groups attaining the maximum and minimum mean
download over the per-hour groups, `speedDifference` is their gap, the
night partition is the `hour ≥ 22 ∨ hour < 6` filter of the hour groups,
and an empty partition averages to 0. -/
theorem peak_analysis_spec (getHours : ℤ → ℕ) (history : List SpeedResult)
    (pa : PeakAnalysis) :
    (history.length < 3 → peakAnalysis getHours history = none) ∧
    ((∃ hr, ∀ t ∈ history, getHours t.timestamp = hr) →
      peakAnalysis getHours history = none) ∧
    (peakAnalysis getHours history = some pa →
      pa.hourlyData = hourlyAverages getHours history ∧
      2 ≤ pa.hourlyData.length ∧
      pa.bestHour ∈ pa.hourlyData ∧
      (∀ g ∈ pa.hourlyData, g.avgDown ≤ pa.bestHour.avgDown) ∧
      pa.worstHour ∈ pa.hourlyData ∧
      (∀ g ∈ pa.hourlyData, pa.worstHour.avgDown ≤ g.avgDown) ∧
      pa.speedDifference = pa.bestHour.avgDown - pa.worstHour.avgDown ∧
      pa.periodAverages.night =
        avgByPeriod (pa.hourlyData.filter
          (fun h => decide (22 ≤ h.hour) || decide (h.hour < 6))) ∧
      avgByPeriod ([] : List HourlyAverage) = 0) := by
  refine ⟨fun h3 => by rw [peakAnalysis, if_pos h3], ?_, ?_⟩
  · rintro ⟨hr0, hall⟩
    by_cases h3 : history.length < 3
    · rw [peakAnalysis, if_pos h3]
    · rw [peakAnalysis, if_neg h3]
      have hle : (hourlyAverages getHours history).length ≤ 1 := by
        apply filterMap_length_le_one (List.range 24) (List.nodup_range 24) _ hr0
        intro hr hmem hsome
        simp only at hsome
        by_cases he : (history.filter (fun t => getHours t.timestamp == hr)).isEmpty
        · rw [if_pos he] at hsome
          simp at hsome
        · obtain ⟨t, ht⟩ :=
            List.exists_mem_of_ne_nil
              (history.filter (fun t => getHours t.timestamp == hr))
              (fun hnil => he (by rw [hnil]; rfl))
          have hmf := List.mem_filter.1 ht
          have heq : getHours t.timestamp = hr := by simpa using hmf.2
          rw [← heq]
          exact hall t hmf.1
      rw [if_pos (by omega)]
  · intro hpa
    rw [peakAnalysis] at hpa
    by_cases h3 : history.length < 3
    · rw [if_pos h3] at hpa
      simp at hpa
    rw [if_neg h3] at hpa
    by_cases h2 : (hourlyAverages getHours history).length < 2
    · rw [if_pos h2] at hpa
      simp at hpa
    rw [if_neg h2] at hpa
    rcases hs : List.mergeSort (hourlyAverages getHours history)
        (fun a b => decide (b.avgDown ≤ a.avgDown)) with _ | ⟨best, rest⟩
    · rw [hs] at hpa
      simp at hpa
    rw [hs] at hpa
    have hpe : _ = pa := Option.some.inj hpa
    have hperm : List.Perm (best :: rest) (hourlyAverages getHours history) := by
      rw [← hs]
      exact List.mergeSort_perm (hourlyAverages getHours history) _
    have hsorted0 : (best :: rest).Pairwise
        (fun a b => (decide (b.avgDown ≤ a.avgDown)) = true) := by
      rw [← hs]
      apply List.sorted_mergeSort
      · intro a b c hab hbc
        simp only [decide_eq_true_eq] at *
        exact le_trans hbc hab
      · intro a b
        simp only [Bool.or_eq_true, decide_eq_true_eq]
        exact le_total b.avgDown a.avgDown
    have hsorted : (best :: rest).Pairwise (fun a c => c.avgDown ≤ a.avgDown) :=
      hsorted0.imp (fun hab => of_decide_eq_true hab)
    have hlast := getLastD_min_of_pairwise rest best hsorted
    rw [← hpe]
    refine ⟨rfl, by show 2 ≤ (hourlyAverages getHours history).length; omega,
      ?_, ?_, ?_, ?_, rfl, rfl, rfl⟩
    · exact hperm.subset (List.mem_cons_self _ _)
    · intro g hg
      rcases List.mem_cons.1 (hperm.symm.subset hg) with rfl | hg'
      · exact le_refl _
      · exact (List.pairwise_cons.1 hsorted).1 g hg'
    · exact hperm.subset hlast.1
    · intro g hg
      exact hlast.2 g (hperm.symm.subset hg)

end SpeedLab
